import Mathlib

/-!
Verification of the iteragent controller (src/run.py): a sequential loop that
renders a task per input file and dispatches it to a rotating queue of external
command-line agents, rotating the front agent to the back on rate-limited
failures.  The script is embedded shallowly: pure string/path manipulation is
translated function by function; the ambient filesystem, the subprocess results
and the process environment are passed explicitly through an `Env` record, and
all filesystem side effects are recorded as an ordered trace of `Event`s.
-/

/-! ### String helpers mirroring Python primitives -/

/-- Does the list `s` start with `sub`?  Models the prefix test used by
Python's substring operator. -/
def hasPre (sub s : List Char) : Bool :=
  match sub, s with
  | [], _ => true
  | _ :: _, [] => false
  | a :: as, b :: bs => a == b && hasPre as bs

/-- Does the list `s` contain `sub` as a contiguous sublist?  Models Python's
`sub in s` substring test. -/
def hasSub (sub : List Char) : List Char → Bool
  | [] => hasPre sub []
  | b :: bs => hasPre sub (b :: bs) || hasSub sub bs

/-- Python's `sub in s` on strings. -/
def strContains (s sub : String) : Bool :=
  hasSub sub.data s.data

/-- Python's `s.startswith(pre)`. -/
def strStartsWith (s pre : String) : Bool :=
  hasPre pre.data s.data

/-- Python's `s.endswith(suf)`. -/
def strEndsWith (s suf : String) : Bool :=
  hasPre suf.data.reverse s.data.reverse

/-- Split a character list at every occurrence of the separator; `acc` holds
the reversed characters of the current piece. -/
def splitOnSepCL (sep : Char) : List Char → List Char → List (List Char)
  | acc, [] => [acc.reverse]
  | acc, c :: cs =>
      if c == sep then acc.reverse :: splitOnSepCL sep [] cs
      else splitOnSepCL sep (c :: acc) cs

/-- Python's `str.split(sep)` for a one-character separator (also how the
model splits paths on `/`). -/
def pySplit (s : String) (sep : Char) : List String :=
  (splitOnSepCL sep [] s.data).map String.mk

/-- Leftmost non-overlapping replacement of a non-empty pattern, fuelled by
the input length (each step consumes at least one character, so the fuel
never runs out on the inputs the model uses). -/
def replFuel (pat rep : List Char) : Nat → List Char → List Char
  | 0, s => s
  | _ + 1, [] => []
  | fuel + 1, c :: cs =>
      if hasPre pat (c :: cs) then
        rep ++ replFuel pat rep fuel (List.drop (pat.length - 1) cs)
      else c :: replFuel pat rep fuel cs

/-- Python's `str.replace` for the non-empty patterns the script uses. -/
def pyReplace (s pat rep : String) : String :=
  String.mk (replFuel pat.data rep.data s.data.length s.data)

/-- Lexicographic comparison of character lists by code point: the order
Python's `sorted` applies to strings. -/
def charListLe : List Char → List Char → Bool
  | [], _ => true
  | _ :: _, [] => false
  | a :: as, b :: bs =>
      if a < b then true
      else if b < a then false
      else charListLe as bs

/-- Python's `str.lower()`, modelled on the ASCII range (the rate-limit
signature tokens are all ASCII). -/
def pyLower (s : String) : String :=
  String.mk (s.data.map Char.toLower)

/-- Whitespace characters stripped by Python's `str.strip()` (ASCII range). -/
def pyWs (c : Char) : Bool :=
  c == ' ' || c == '\t' || c == '\n' || c == '\r' || c == '\x0b' || c == '\x0c'

/-- Python's `str.strip()`. -/
def pyStrip (s : String) : String :=
  String.mk (((s.data.dropWhile pyWs).reverse.dropWhile pyWs).reverse)

/-! ### Path helpers mirroring `os.path` on POSIX -/

/-- `os.path.join a b` for the joins performed by the script (second component
never empty). -/
def pjoin (a b : String) : String :=
  if strStartsWith b "/" then b
  else if a = "" then b
  else if strEndsWith a "/" then a ++ b
  else a ++ "/" ++ b

/-- `os.path.abspath` relative to the current working directory `cwd`
(the script never relies on `..`/`.` normalisation, which is omitted). -/
def abspath (cwd p : String) : String :=
  if strStartsWith p "/" then p else pjoin cwd p

/-- `os.path.basename`. -/
def basename (p : String) : String :=
  (pySplit p '/').getLastD ""

/-- Path components of an absolute path. -/
def splitPath (p : String) : List String :=
  (pySplit p '/').filter (fun c => !(c == ""))

/-- Does base name `p` sort no later than base name `q`?  The key order of
`sorted(entries, key=os.path.basename)`. -/
def leBase (p q : String) : Bool :=
  charListLe (basename p).data (basename q).data

/-- Insert into a list sorted by base name, in front of the first element
that is not smaller. -/
def orderedInsertB (x : String) : List String → List String
  | [] => [x]
  | y :: ys => if leBase x y then x :: y :: ys else y :: orderedInsertB x ys

/-- `sorted(..., key=os.path.basename)`: insertion sort by base name. -/
def sortByBase : List String → List String
  | [] => []
  | x :: xs => orderedInsertB x (sortByBase xs)

/-- Drop the longest common leading run of two component lists. -/
def dropCommon : List String → List String → List String × List String
  | a :: as, b :: bs => if a = b then dropCommon as bs else (a :: as, b :: bs)
  | as, bs => (as, bs)

/-- `os.path.relpath p start` for two absolute paths. -/
def relpath (p start : String) : String :=
  let pr := dropCommon (splitPath p) (splitPath start)
  let parts := List.replicate pr.2.length ".." ++ pr.1
  if parts = [] then "." else String.intercalate "/" parts

/-- `os.path.splitext` applied to a base name: split at the last dot unless
every character before it is itself a dot. -/
def splitext (s : String) : String × String :=
  let cs := s.data
  match (List.findIdx? (fun c => c == '.') cs.reverse) with
  | none => (s, "")
  | some k =>
      let i := cs.length - 1 - k
      if (cs.take i).any (fun c => !(c == '.')) then
        (String.mk (cs.take i), String.mk (cs.drop i))
      else (s, "")

/-- Characters that `shlex.quote` leaves unquoted. -/
def shlexSafe (c : Char) : Bool :=
  ('a' ≤ c && c ≤ 'z') || ('A' ≤ c && c ≤ 'Z') || ('0' ≤ c && c ≤ '9') ||
    "_@%+=:,./-".data.contains c

/-- Python's `shlex.quote`. -/
def shlex_quote (s : String) : String :=
  if s = "" then "\x27\x27"
  else if s.data.all shlexSafe then s
  else "\x27" ++ (pyReplace s "\x27" "\x27\"\x27\"\x27") ++ "\x27"

/-! ### Data model -/

/-- Captured result of one external agent invocation
(`subprocess.CompletedProcess`). -/
structure ProcResult where
  returncode : Int
  stdout : String
  stderr : String
  deriving Repr, DecidableEq

/-- One entry of `os.scandir`: a name and whether it is a regular file. -/
structure DirEntry where
  name : String
  isFile : Bool
  deriving Repr, DecidableEq

/-- What the input path denotes on disk: a regular file, or a directory with
its entries. -/
inductive PathKind where
  | regular : PathKind
  | directory : List DirEntry → PathKind
  deriving Repr, DecidableEq

/-- A recorded side effect of the run, in chronological order:
directory creation (`os.makedirs`), an agent invocation, or a file write. -/
inductive Event where
  | mkdirE : String → Event
  | invokeE : String → List String → ProcResult → Event
  | writeE : String → String → Event
  deriving Repr, DecidableEq

/-- The parsed command-line arguments (`parse_args`). -/
structure Args where
  input_dir : String
  task_file : String
  output_dir : String
  sample_run : Bool
  force_rerun : Bool
  bwrap : Bool
  agents : String
  deriving Repr

/-- The ambient environment of one run: working directory, directory of the
script (`os.path.dirname(os.path.abspath(__file__))`), the task file's
contents, what the input path denotes, whether `bwrap` is on `PATH`, the
set of paths existing before the run, and the stream of subprocess results
(the `n`-th invocation of the run returns `exec n`). -/
structure Env where
  cwd : String
  script_dir : String
  task_text : String
  input_node : PathKind
  bwrap_found : Bool
  fs0 : List String
  exec : Nat → ProcResult

/-- Values computed once by `main` before the file loop. -/
structure Ctx where
  env : Env
  args : Args
  input_dir : String
  output_dir : String
  prompts_dir : String
  logs_dir : String
  cmdPre : List String
  task_text : String

/-- The mutable state of `main`'s loop: the agent deque (front first), the
two counters, the number of invocations performed so far, and the trace of
side effects so far. -/
structure LoopSt where
  agents : List String
  succeeded : Nat
  failed : Nat
  invCount : Nat
  events : List Event
  deriving Repr, DecidableEq

/-- How processing one input file ended. -/
inductive Outcome where
  | skipped : Outcome
  | success : Outcome
  | fatal : Int → Outcome
  | exhausted : Outcome
  deriving Repr, DecidableEq

/-! ### The script's functions -/

/-- `list_input_files`: a single file yields itself; a directory yields its
regular files, sorted by base name. -/
def list_input_files (node : PathKind) (input_path : String) : List String :=
  match node with
  | PathKind.regular => [input_path]
  | PathKind.directory es =>
      sortByBase ((es.filter (fun e => e.isFile)).map
        (fun e => pjoin input_path e.name))

/-- `render_task`: substitute the required placeholder and the two legacy
tokens. -/
def render_task (task input_file input_rel_path : String) : String :=
  let rendered := pyReplace task "\x7b\x7bINPUT_FILE\x7d\x7d" input_rel_path
  let rendered := pyReplace rendered "\x7binput_file\x7d" input_file
  pyReplace rendered "\x7binput_path\x7d" input_rel_path

/-- `build_bwrap_prefix`: the bubblewrap wrapper argument vector; `ex` is the
ambient `os.path.exists`. -/
def build_bwrap_pre (ex : String → Bool) (input_dir output_dir : String) :
    List String :=
  ["bwrap", "--unshare-all", "--share-net"] ++
    ((["/usr", "/bin", "/lib", "/lib64", "/etc", "/run"].filter ex).flatMap
      (fun p => ["--ro-bind", p, p])) ++
    ["--dev", "/dev", "--proc", "/proc", "--tmpfs", "/tmp", "--tmpfs",
     "/var/tmp", "--ro-bind", input_dir, input_dir, "--bind", output_dir,
     output_dir, "--setenv", "HOME", output_dir, "--setenv", "XDG_CACHE_HOME",
     pjoin output_dir ".cache", "--setenv", "XDG_CONFIG_HOME",
     pjoin output_dir ".config", "--setenv", "XDG_DATA_HOME",
     pjoin (pjoin output_dir ".local") "share", "--chdir", output_dir]

/-- `run_claude`: the argument vector it executes (the subprocess result is
supplied by `Env.exec`). -/
def run_claude (prompt_text : String) (cmdPre : List String) : List String :=
  cmdPre ++ ["claude", "-p", prompt_text, "--allowedTools",
    "Bash,BashOutput,Read,Grep,Glob,Edit,Update,Task,TodoWrite,WebFetch,WebSearch"]

/-- `run_codex`: the argument vector it executes. -/
def run_codex (prompt_text : String) (cmdPre : List String) : List String :=
  cmdPre ++ ["codex", "exec", "--sandbox", "danger-full-access", "--",
    prompt_text]

/-- `run_gemini`: the argument vector it executes. -/
def run_gemini (prompt_text : String) (cmdPre : List String) : List String :=
  cmdPre ++ ["gemini", "-p", prompt_text, "-y", "--output-format", "text"]

/-- The agent dispatch in `main`'s loop: `claude` and `gemini` by name,
every other agent name falls through to the codex invoker. -/
def dispatchCmd (agent prompt_text : String) (cmdPre : List String) :
    List String :=
  if agent == "claude" then run_claude prompt_text cmdPre
  else if agent == "gemini" then run_gemini prompt_text cmdPre
  else run_codex prompt_text cmdPre

/-- `is_rate_limited`: case-insensitive substring match against the fixed
token set. -/
def is_rate_limited (output : String) : Bool :=
  let lowered := pyLower output
  (["rate limit", "rate-limit", "too many requests", "429"]).any
    (fun token => strContains lowered token)

/-- The combined output fed to `is_rate_limited`: stripped stdout and stderr,
empty parts dropped, joined by a newline. -/
def combined_output (stdout stderr : String) : String :=
  String.intercalate "\n"
    (([pyStrip stdout, pyStrip stderr]).filter (fun part => !(part == "")))

/-- Contents of one attempt's log file: the shell-escaped command line, the
exit code, then stdout and stderr under their own headings when present. -/
def logContent (cmd_list : List String) (result : ProcResult) : String :=
  "# Command: " ++ String.intercalate " " (cmd_list.map shlex_quote) ++ "\n" ++
  "# Exit code: " ++ toString result.returncode ++ "\n\n" ++
  (if result.stdout == "" then ""
   else "## STDOUT\n" ++ result.stdout ++
     (if strEndsWith result.stdout "\n" then "" else "\n")) ++
  (if result.stderr == "" then ""
   else "\n## STDERR\n" ++ result.stderr ++
     (if strEndsWith result.stderr "\n" then "" else "\n"))

/-- The agent list parsed from `--agents`: split on commas, strip, drop
empties. -/
def agentsOf (s : String) : List String :=
  ((pySplit s ',').map pyStrip).filter (fun a => !(a == ""))

/-- `os.path.exists` during the run: a path exists if it existed initially or
was created (written or made as a directory) by an earlier event. -/
def eventTouches (p : String) : Event → Bool
  | Event.mkdirE q => q == p
  | Event.writeE q _ => q == p
  | Event.invokeE _ _ _ => false

/-- Does a write to exactly path `p` occur in the trace? -/
def isWriteTo (p : String) : Event → Bool
  | Event.writeE q _ => q == p
  | _ => false

/-- `os.path.exists p` given the initial filesystem and the events so far. -/
def path_exists (fs0 : List String) (events : List Event) (p : String) : Bool :=
  fs0.contains p || events.any (eventTouches p)

/-- The output artifact path of an input file:
`<output_dir>/<stem of base name>.json`. -/
def outPathOf (output_dir input_path : String) : String :=
  pjoin output_dir ((splitext (basename input_path)).1 ++ ".json")

/-- The persisted prompt path of an input file:
`<prompts_dir>/<base name>.prompt.md`. -/
def promptPathOf (prompts_dir input_path : String) : String :=
  pjoin prompts_dir (basename input_path ++ ".prompt.md")

/-- The log path of one attempt: `<logs_dir>/<agent>/<base name>.log`. -/
def logPathOf (logs_dir agent input_file : String) : String :=
  pjoin (pjoin logs_dir agent) (input_file ++ ".log")

/-- The value substituted for the placeholder: the absolute path under
`--bwrap`, otherwise the path relative to the script's directory. -/
def input_relOf (bwrap : Bool) (script_dir input_path : String) : String :=
  if bwrap then input_path else relpath input_path script_dir

/-- The per-attempt trace of one loop iteration: the agent's log directory is
ensured, the invocation happens, and its log file is written. -/
def attemptEvents (ctx : Ctx) (prompt_text input_file agent : String)
    (result : ProcResult) : List Event :=
  [Event.mkdirE (pjoin ctx.logs_dir agent),
   Event.invokeE agent (dispatchCmd agent prompt_text ctx.cmdPre) result,
   Event.writeE (logPathOf ctx.logs_dir agent input_file)
     (logContent (dispatchCmd agent prompt_text ctx.cmdPre) result)]

/-- The inner `for _ in range(len(agents))` loop of `main`, fuelled by the
number of remaining tries.  Each try peeks the front agent, ensures its log
directory, dispatches the invocation, logs it, and then: exit 0 writes the
output artifact and stops; a rate-limited failure rotates the front agent to
the back, appends an attempt record and continues; any other failure is
fatal.  Exhausting the fuel is the loop's `else` (all agents rate limited). -/
def tryAgents (ctx : Ctx) (prompt_text output_path input_file : String) :
    Nat → LoopSt → List (String × String) →
      Outcome × LoopSt × List (String × String)
  | 0, st, attempts => (Outcome.exhausted, st, attempts)
  | fuel + 1, st, attempts =>
    let agent := st.agents.headD ""
    let log_path := logPathOf ctx.logs_dir agent input_file
    let result := ctx.env.exec st.invCount
    let st1 : LoopSt :=
      { st with
        invCount := st.invCount + 1,
        events := st.events ++ attemptEvents ctx prompt_text input_file agent result }
    if result.returncode == 0 then
      (Outcome.success,
       { st1 with
         succeeded := st1.succeeded + 1,
         events := st1.events ++ [Event.writeE output_path result.stdout] },
       attempts)
    else
      let attempts1 := attempts ++ [(agent, log_path)]
      if is_rate_limited (combined_output result.stdout result.stderr) then
        tryAgents ctx prompt_text output_path input_file fuel
          { st1 with agents := st1.agents.tail ++ [agent] } attempts1
      else
        (Outcome.fatal result.returncode,
         { st1 with failed := st1.failed + 1 }, attempts1)

/-- Processing of one input file: skip if the output artifact exists and
re-run is not forced; otherwise persist the rendered prompt and run the
agent loop. -/
def processFile (ctx : Ctx) (input_path : String) (st : LoopSt) :
    Outcome × LoopSt :=
  let input_file := basename input_path
  let input_rel_path := input_relOf ctx.args.bwrap ctx.env.script_dir input_path
  let output_path := outPathOf ctx.output_dir input_path
  if path_exists ctx.env.fs0 st.events output_path && !ctx.args.force_rerun then
    (Outcome.skipped, { st with succeeded := st.succeeded + 1 })
  else
    let prompt_text := render_task ctx.task_text input_file input_rel_path
    let prompt_path := promptPathOf ctx.prompts_dir input_path
    let st1 :=
      { st with events := st.events ++ [Event.writeE prompt_path prompt_text] }
    match tryAgents ctx prompt_text output_path input_file
        st1.agents.length st1 [] with
    | (Outcome.fatal c, st2, _) => (Outcome.fatal c, st2)
    | (Outcome.exhausted, st2, _) =>
        (Outcome.exhausted, { st2 with failed := st2.failed + 1 })
    | (_, st2, _) => (Outcome.success, st2)

/-- The outer file loop: a fatal failure aborts with that agent's exit code,
exhaustion aborts with code 3, otherwise continue (stopping after the first
file under `--sample-run`). -/
def processFiles (ctx : Ctx) : List String → LoopSt → Option Int × LoopSt
  | [], st => (none, st)
  | f :: rest, st =>
    match processFile ctx f st with
    | (Outcome.fatal c, st1) => (some c, st1)
    | (Outcome.exhausted, st1) => (some 3, st1)
    | (_, st1) =>
        if ctx.args.sample_run then (none, st1)
        else processFiles ctx rest st1

/-- `abspath` of the positional input path. -/
def input_dirOf (env : Env) (args : Args) : String :=
  abspath env.cwd args.input_dir

/-- `abspath` of `--output-dir`. -/
def output_dirOf (env : Env) (args : Args) : String :=
  abspath env.cwd args.output_dir

/-- The prompts directory of the run. -/
def prompts_dirOf (env : Env) (args : Args) : String :=
  pjoin (output_dirOf env args) "prompts"

/-- The logs root of the run. -/
def logs_dirOf (env : Env) (args : Args) : String :=
  pjoin (output_dirOf env args) "logs"

/-- The enumerated input files of the run. -/
def inputFilesOf (env : Env) (args : Args) : List String :=
  list_input_files env.input_node (input_dirOf env args)

/-- The loop state right after the queue is created: the parsed agent list,
zeroed counters, and the two directory creations already recorded. -/
def st0Of (env : Env) (args : Args) : LoopSt :=
  ⟨agentsOf args.agents, 0, 0, 0,
   [Event.mkdirE (prompts_dirOf env args), Event.mkdirE (logs_dirOf env args)]⟩

/-- The command prefix of the run: the bubblewrap wrapper under `--bwrap`,
otherwise empty. -/
def cmdPreOf (env : Env) (args : Args) : List String :=
  if args.bwrap then
    build_bwrap_pre
      (path_exists env.fs0
        [Event.mkdirE (prompts_dirOf env args),
         Event.mkdirE (logs_dirOf env args)])
      (input_dirOf env args) (output_dirOf env args)
  else []

/-- The per-run context computed by `main` before the file loop. -/
def ctxOf (env : Env) (args : Args) : Ctx :=
  ⟨env, args, input_dirOf env args, output_dirOf env args,
   prompts_dirOf env args, logs_dirOf env args, cmdPreOf env args,
   env.task_text⟩

/-- The loop state of a run that ended before touching anything. -/
def emptySt : LoopSt := ⟨[], 0, 0, 0, []⟩

namespace Run

/-- `main`: the whole run.  Returns the process exit code and the final loop
state (queue, counters, invocation count, and the ordered trace of side
effects). -/
def main (env : Env) (args : Args) : Int × LoopSt :=
  if !(strContains env.task_text "\x7b\x7bINPUT_FILE\x7d\x7d") then
    (2, emptySt)
  else if (inputFilesOf env args).isEmpty then (1, emptySt)
  else if args.bwrap && !env.bwrap_found then (2, emptySt)
  else if (agentsOf args.agents).isEmpty then
    (2, ⟨[], 0, 0, 0,
         [Event.mkdirE (prompts_dirOf env args),
          Event.mkdirE (logs_dirOf env args)]⟩)
  else
    match processFiles (ctxOf env args) (inputFilesOf env args)
        (st0Of env args) with
    | (some c, st) => (c, st)
    | (none, st) => (0, st)

end Run

/-- Is this event a rate-limited failed invocation (the one situation in which
the controller rotates the queue)? -/
def isRlFailure : Event → Bool
  | Event.invokeE _ _ r =>
      !(r.returncode == 0) &&
        is_rate_limited (combined_output r.stdout r.stderr)
  | _ => false

/-- Number of rate-limited failed invocations in a trace. -/
def rlCount (es : List Event) : Nat :=
  (es.filter isRlFailure).length

/-- The filesystem paths created by a trace (written files and made
directories). -/
def eventPathsOf (es : List Event) : List String :=
  es.filterMap (fun e =>
    match e with
    | Event.mkdirE p => some p
    | Event.writeE p _ => some p
    | Event.invokeE _ _ _ => none)

/-- The environment as a second run sees it: the same world, with every path
the first run created now existing. -/
def afterRun (env : Env) (args : Args) : Env :=
  { env with fs0 := env.fs0 ++ eventPathsOf ((Run.main env args).2).events }

/-! ### Concrete runs used by the claim theorems and witnesses -/

/-- The spec's concrete scenario: one input file `f1.txt`, agents `A, B, C`;
the first two invocations fail with rate-limit text, the third succeeds with
stdout `RESULT`. -/
def envC1 : Env :=
  { cwd := "/w", script_dir := "/w",
    task_text := "T \x7b\x7bINPUT_FILE\x7d\x7d",
    input_node := PathKind.directory [⟨"f1.txt", true⟩],
    bwrap_found := false, fs0 := [],
    exec := fun n =>
      if n == 0 then ⟨1, "", "429"⟩
      else if n == 1 then ⟨1, "", "rate limit hit"⟩
      else ⟨0, "RESULT", ""⟩ }

/-- Arguments of the concrete scenario: defaults, agents `A,B,C`. -/
def argsC1 : Args :=
  { input_dir := "input", task_file := "TASK.md", output_dir := "output",
    sample_run := false, force_rerun := false, bwrap := false,
    agents := "A,B,C" }

/-- A world in which `f1.txt`'s output artifact already exists, so the file
is skipped. -/
def envC6 : Env :=
  { cwd := "/w", script_dir := "/w",
    task_text := "T \x7b\x7bINPUT_FILE\x7d\x7d",
    input_node := PathKind.directory [⟨"f1.txt", true⟩],
    bwrap_found := false, fs0 := ["/w/output/f1.json"],
    exec := fun _ => ⟨0, "OK", ""⟩ }

/-- A world with two input files in which every invocation fails fatally
(exit 5, no rate-limit text). -/
def envW2 : Env :=
  { cwd := "/w", script_dir := "/w",
    task_text := "T \x7b\x7bINPUT_FILE\x7d\x7d",
    input_node := PathKind.directory [⟨"f1.txt", true⟩, ⟨"f2.txt", true⟩],
    bwrap_found := false, fs0 := [],
    exec := fun _ => ⟨5, "boom", ""⟩ }

/-- Arguments with a two-agent queue `A,B`. -/
def argsW2 : Args :=
  { input_dir := "input", task_file := "TASK.md", output_dir := "output",
    sample_run := false, force_rerun := false, bwrap := false,
    agents := "A,B" }

/-- A world with two input files in which every invocation is rate limited. -/
def envW3 : Env :=
  { cwd := "/w", script_dir := "/w",
    task_text := "T \x7b\x7bINPUT_FILE\x7d\x7d",
    input_node := PathKind.directory [⟨"f1.txt", true⟩, ⟨"f2.txt", true⟩],
    bwrap_found := false, fs0 := [],
    exec := fun _ => ⟨1, "", "429 too many requests"⟩ }

/-- A world whose task template lacks the required placeholder token. -/
def envW7 : Env :=
  { cwd := "/w", script_dir := "/w",
    task_text := "a template with no placeholder",
    input_node := PathKind.directory [⟨"f1.txt", true⟩],
    bwrap_found := false, fs0 := [],
    exec := fun _ => ⟨0, "OK", ""⟩ }

/-! ### Lemmas about the string and path helpers -/

theorem hasPre_iff (sub s : List Char) : hasPre sub s = true ↔ sub <+: s := by
  induction sub generalizing s with
  | nil => simp [hasPre]
  | cons a as ih =>
      cases s with
      | nil => simp [hasPre]
      | cons b bs => simp [hasPre, List.cons_prefix_cons, ih]

theorem hasSub_iff (sub s : List Char) : hasSub sub s = true ↔ sub <:+: s := by
  induction s with
  | nil => simp [hasSub, hasPre_iff]
  | cons b bs ih => simp [hasSub, hasPre_iff, ih, List.infix_cons_iff]

theorem pjoin_ends (a b : String) : ∃ q, pjoin a b = q ++ b := by
  unfold pjoin
  by_cases h1 : strStartsWith b "/" = true
  · exact ⟨"", by simp [h1]⟩
  · by_cases h2 : a = ""
    · exact ⟨"", by simp [h1, h2]⟩
    · by_cases h3 : strEndsWith a "/" = true
      · exact ⟨a, by simp [h1, h2, h3]⟩
      · exact ⟨a ++ "/", by simp [h1, h2, h3, String.append_assoc]⟩

theorem append_last_ne {u v : String} {c d : Char}
    (hc : u.data.getLast? = some c) (hd : v.data.getLast? = some d)
    (hne : c ≠ d) : ∀ q1 q2 : String, q1 ++ u ≠ q2 ++ v := by
  intro q1 q2 h
  have h2 := congrArg (fun s : String => s.data.getLast?) h
  simp only [String.data_append, List.getLast?_append, hc, hd] at h2
  simp [Option.or] at h2
  exact hne h2

theorem log_ne_json (q1 q2 : String) : q1 ++ ".log" ≠ q2 ++ ".json" :=
  @append_last_ne ".log" ".json" 'g' 'n' (by decide) (by decide) (by decide)
    q1 q2

theorem promptmd_ne_json (q1 q2 : String) :
    q1 ++ ".prompt.md" ≠ q2 ++ ".json" :=
  @append_last_ne ".prompt.md" ".json" 'd' 'n' (by decide) (by decide)
    (by decide) q1 q2

theorem logPath_ends (logs_dir agent inf : String) :
    ∃ q, logPathOf logs_dir agent inf = q ++ ".log" := by
  obtain ⟨q, hq⟩ := pjoin_ends (pjoin logs_dir agent) (inf ++ ".log")
  exact ⟨q ++ inf, by rw [logPathOf, hq, String.append_assoc]⟩

theorem promptPath_ends (prompts_dir f : String) :
    ∃ q, promptPathOf prompts_dir f = q ++ ".prompt.md" := by
  obtain ⟨q, hq⟩ := pjoin_ends prompts_dir (basename f ++ ".prompt.md")
  exact ⟨q ++ basename f, by rw [promptPathOf, hq, String.append_assoc]⟩

theorem outPath_ends (output_dir f : String) :
    ∃ q, outPathOf output_dir f = q ++ ".json" := by
  obtain ⟨q, hq⟩ := pjoin_ends output_dir ((splitext (basename f)).1 ++ ".json")
  exact ⟨q ++ (splitext (basename f)).1,
    by rw [outPathOf, hq, String.append_assoc]⟩

/-! ### Lemmas about the base-name sort -/

theorem charListLe_iff (as : List Char) :
    ∀ bs, charListLe as bs = true ↔ ¬ List.Lex (· < ·) bs as := by
  induction as with
  | nil =>
      intro bs
      simp only [charListLe, true_iff]
      exact List.Lex.not_nil_right _ _
  | cons a as ih =>
      intro bs
      cases bs with
      | nil =>
          simp only [charListLe, Bool.false_eq_true, false_iff, not_not]
          exact List.Lex.nil
      | cons b bs =>
          simp only [charListLe]
          rcases lt_trichotomy a b with hab | hab | hab
          · rw [if_pos hab]
            simp only [true_iff]
            intro hlex
            cases hlex with
            | rel h => exact absurd hab (lt_asymm h)
            | cons h => exact absurd hab (lt_irrefl a)
          · subst hab
            rw [if_neg (lt_irrefl a), if_neg (lt_irrefl a)]
            rw [List.Lex.cons_iff]
            exact ih bs
          · rw [if_neg (lt_asymm hab), if_pos hab]
            simp only [Bool.false_eq_true, false_iff, not_not]
            exact List.Lex.rel hab

theorem charListLe_total (as : List Char) :
    ∀ bs, charListLe as bs = true ∨ charListLe bs as = true := by
  induction as with
  | nil => intro bs; exact Or.inl rfl
  | cons a as ih =>
      intro bs
      cases bs with
      | nil => exact Or.inr rfl
      | cons b bs =>
          simp only [charListLe]
          rcases lt_trichotomy a b with h | h | h
          · left; rw [if_pos h]
          · subst h
            simp only [lt_self_iff_false, if_false]
            exact ih bs
          · right; rw [if_pos h]

theorem leBase_le {p q : String} (h : leBase p q = true) :
    basename p ≤ basename q := by
  rw [String.le_iff_toList_le]
  have h2 := (charListLe_iff (basename p).data (basename q).data).mp h
  exact le_of_not_lt h2

theorem mem_orderedInsertB (x z : String) :
    ∀ l, z ∈ orderedInsertB x l ↔ z = x ∨ z ∈ l := by
  intro l
  induction l with
  | nil => simp [orderedInsertB]
  | cons y ys ih =>
      simp only [orderedInsertB]
      by_cases h : leBase x y = true
      · rw [if_pos h]; simp
      · rw [if_neg h]; simp [ih]; tauto

theorem orderedInsertB_perm (x : String) :
    ∀ l, (orderedInsertB x l).Perm (x :: l) := by
  intro l
  induction l with
  | nil => simp [orderedInsertB]
  | cons y ys ih =>
      simp only [orderedInsertB]
      by_cases h : leBase x y = true
      · rw [if_pos h]
      · rw [if_neg h]
        exact (ih.cons y).trans (List.Perm.swap x y ys)

theorem sortByBase_perm : ∀ l, (sortByBase l).Perm l := by
  intro l
  induction l with
  | nil => simp [sortByBase]
  | cons x xs ih =>
      simp only [sortByBase]
      exact (orderedInsertB_perm x (sortByBase xs)).trans (ih.cons x)

theorem orderedInsertB_pairwise (x : String) :
    ∀ l, l.Pairwise (fun q r => basename q ≤ basename r) →
      (orderedInsertB x l).Pairwise (fun q r => basename q ≤ basename r) := by
  intro l
  induction l with
  | nil => intro _; simp [orderedInsertB]
  | cons y ys ih =>
      intro hp
      obtain ⟨hy, hys⟩ := List.pairwise_cons.mp hp
      simp only [orderedInsertB]
      by_cases h : leBase x y = true
      · rw [if_pos h]
        refine List.Pairwise.cons ?_ hp
        intro z hz
        rcases List.mem_cons.mp hz with rfl | hz2
        · exact leBase_le h
        · exact le_trans (leBase_le h) (hy z hz2)
      · rw [if_neg h]
        refine List.Pairwise.cons ?_ (ih hys)
        intro z hz
        rcases (mem_orderedInsertB x z ys).mp hz with rfl | hz2
        · rcases charListLe_total (basename z).data (basename y).data with ht | ht
          · exact absurd ht h
          · exact leBase_le ht
        · exact hy z hz2

theorem sortByBase_pairwise :
    ∀ l, (sortByBase l).Pairwise (fun q r => basename q ≤ basename r) := by
  intro l
  induction l with
  | nil => simp [sortByBase]
  | cons x xs ih => exact orderedInsertB_pairwise x (sortByBase xs) ih

/-! ### Lemmas about the controller loop -/

theorem tryAgents_zero (ctx : Ctx) (pt op inf : String) (st : LoopSt)
    (atts : List (String × String)) :
    tryAgents ctx pt op inf 0 st atts = (Outcome.exhausted, st, atts) := rfl

theorem tryAgents_succ_success (ctx : Ctx) (pt op inf : String) (n : Nat)
    (st : LoopSt) (atts : List (String × String))
    (h0 : (ctx.env.exec st.invCount).returncode = 0) :
    tryAgents ctx pt op inf (n + 1) st atts =
      (Outcome.success,
       ⟨st.agents, st.succeeded + 1, st.failed, st.invCount + 1,
        st.events ++
          attemptEvents ctx pt inf (st.agents.headD "") (ctx.env.exec st.invCount) ++
          [Event.writeE op (ctx.env.exec st.invCount).stdout]⟩,
       atts) := by
  simp [tryAgents, h0]

theorem tryAgents_succ_rl (ctx : Ctx) (pt op inf : String) (n : Nat)
    (st : LoopSt) (atts : List (String × String))
    (h0 : (ctx.env.exec st.invCount).returncode ≠ 0)
    (hrl : is_rate_limited (combined_output (ctx.env.exec st.invCount).stdout
      (ctx.env.exec st.invCount).stderr) = true) :
    tryAgents ctx pt op inf (n + 1) st atts =
      tryAgents ctx pt op inf n
        ⟨st.agents.tail ++ [st.agents.headD ""], st.succeeded, st.failed,
         st.invCount + 1,
         st.events ++
           attemptEvents ctx pt inf (st.agents.headD "") (ctx.env.exec st.invCount)⟩
        (atts ++ [(st.agents.headD "",
          logPathOf ctx.logs_dir (st.agents.headD "") inf)]) := by
  simp [tryAgents, h0, hrl]

theorem tryAgents_succ_fatal (ctx : Ctx) (pt op inf : String) (n : Nat)
    (st : LoopSt) (atts : List (String × String))
    (h0 : (ctx.env.exec st.invCount).returncode ≠ 0)
    (hrl : is_rate_limited (combined_output (ctx.env.exec st.invCount).stdout
      (ctx.env.exec st.invCount).stderr) = false) :
    tryAgents ctx pt op inf (n + 1) st atts =
      (Outcome.fatal (ctx.env.exec st.invCount).returncode,
       ⟨st.agents, st.succeeded, st.failed + 1, st.invCount + 1,
        st.events ++
          attemptEvents ctx pt inf (st.agents.headD "") (ctx.env.exec st.invCount)⟩,
       atts ++ [(st.agents.headD "",
         logPathOf ctx.logs_dir (st.agents.headD "") inf)]) := by
  simp [tryAgents, h0, hrl]

theorem rlCount_append (a b : List Event) :
    rlCount (a ++ b) = rlCount a + rlCount b := by
  simp [rlCount, List.filter_append]

theorem rlCount_attemptEvents_rl (ctx : Ctx) (pt inf agent : String)
    (r : ProcResult) (h0 : r.returncode ≠ 0)
    (hrl : is_rate_limited (combined_output r.stdout r.stderr) = true) :
    rlCount (attemptEvents ctx pt inf agent r) = 1 := by
  have hb : (r.returncode == 0) = false := by simpa using h0
  simp [rlCount, attemptEvents, isRlFailure, List.filter, hb, hrl]

theorem rlCount_attemptEvents_nonrl (ctx : Ctx) (pt inf agent : String)
    (r : ProcResult)
    (h : (!(r.returncode == 0) &&
      is_rate_limited (combined_output r.stdout r.stderr)) = false) :
    rlCount (attemptEvents ctx pt inf agent r) = 0 := by
  simp [rlCount, attemptEvents, isRlFailure, List.filter, h]

theorem tryAgents_rotate (ctx : Ctx) (pt op inf : String) :
    ∀ (fuel : Nat) (st : LoopSt) (atts : List (String × String)),
      fuel ≤ st.agents.length →
      ∃ tail,
        ((tryAgents ctx pt op inf fuel st atts).2.1).events = st.events ++ tail ∧
        ((tryAgents ctx pt op inf fuel st atts).2.1).agents =
          st.agents.rotate (rlCount tail) := by
  intro fuel
  induction fuel with
  | zero =>
      intro st atts _
      exact ⟨[], by simp [tryAgents_zero, rlCount]⟩
  | succ n ih =>
      intro st atts hle
      obtain ⟨a, al, ha⟩ : ∃ a al, st.agents = a :: al := by
        cases hsa : st.agents with
        | nil => rw [hsa] at hle; simp at hle
        | cons a al => exact ⟨a, al, rfl⟩
      by_cases h0 : (ctx.env.exec st.invCount).returncode = 0
      · rw [tryAgents_succ_success ctx pt op inf n st atts h0]
        refine ⟨attemptEvents ctx pt inf (st.agents.headD "")
          (ctx.env.exec st.invCount) ++
          [Event.writeE op (ctx.env.exec st.invCount).stdout], ?_, ?_⟩
        · simp [List.append_assoc]
        · rw [rlCount_append, rlCount_attemptEvents_nonrl _ _ _ _ _ (by simp [h0])]
          simp [rlCount, List.filter, isRlFailure]
      · by_cases hrl : is_rate_limited
          (combined_output (ctx.env.exec st.invCount).stdout
            (ctx.env.exec st.invCount).stderr) = true
        · rw [tryAgents_succ_rl ctx pt op inf n st atts h0 hrl]
          have hlen : n ≤ (st.agents.tail ++ [st.agents.headD ""]).length := by
            rw [ha] at hle ⊢; simp at hle ⊢; omega
          obtain ⟨tail, hev, hag⟩ := ih
            ⟨st.agents.tail ++ [st.agents.headD ""], st.succeeded, st.failed,
             st.invCount + 1,
             st.events ++ attemptEvents ctx pt inf (st.agents.headD "")
               (ctx.env.exec st.invCount)⟩
            (atts ++ [(st.agents.headD "",
              logPathOf ctx.logs_dir (st.agents.headD "") inf)]) hlen
          refine ⟨attemptEvents ctx pt inf (st.agents.headD "")
            (ctx.env.exec st.invCount) ++ tail, ?_, ?_⟩
          · rw [hev]; simp [List.append_assoc]
          · rw [hag, rlCount_append,
              rlCount_attemptEvents_rl ctx pt inf _ _ h0 hrl, ha]
            simp only [List.headD_cons, List.tail_cons]
            rw [← List.rotate_rotate]
            congr 1
            rw [show (1 : Nat) = 0 + 1 by rfl, List.rotate_cons_succ,
              List.rotate_zero]
        · have hrl2 : is_rate_limited
            (combined_output (ctx.env.exec st.invCount).stdout
              (ctx.env.exec st.invCount).stderr) = false := by
            simpa using hrl
          rw [tryAgents_succ_fatal ctx pt op inf n st atts h0 hrl2]
          refine ⟨attemptEvents ctx pt inf (st.agents.headD "")
            (ctx.env.exec st.invCount), rfl, ?_⟩
          rw [rlCount_attemptEvents_nonrl _ _ _ _ _ (by simp [hrl2])]
          simp

theorem processFile_rotate (ctx : Ctx) (f : String) (st : LoopSt) :
    ∃ tail, ((processFile ctx f st).2).events = st.events ++ tail ∧
      ((processFile ctx f st).2).agents = st.agents.rotate (rlCount tail) := by
  by_cases hc : (path_exists ctx.env.fs0 st.events (outPathOf ctx.output_dir f) &&
      !ctx.args.force_rerun) = true
  · exact ⟨[], by simp [processFile, hc], by simp [processFile, hc, rlCount]⟩
  · have hc2 : (path_exists ctx.env.fs0 st.events (outPathOf ctx.output_dir f) &&
        !ctx.args.force_rerun) = false := by simpa using hc
    obtain ⟨tail, hev, hag⟩ := tryAgents_rotate ctx
      (render_task ctx.task_text (basename f)
        (input_relOf ctx.args.bwrap ctx.env.script_dir f))
      (outPathOf ctx.output_dir f) (basename f)
      ({ st with events := st.events ++
          [Event.writeE (promptPathOf ctx.prompts_dir f)
            (render_task ctx.task_text (basename f)
              (input_relOf ctx.args.bwrap ctx.env.script_dir f))] } : LoopSt).agents.length
      { st with events := st.events ++
          [Event.writeE (promptPathOf ctx.prompts_dir f)
            (render_task ctx.task_text (basename f)
              (input_relOf ctx.args.bwrap ctx.env.script_dir f))] }
      [] (le_refl _)
    rcases htry : tryAgents ctx
      (render_task ctx.task_text (basename f)
        (input_relOf ctx.args.bwrap ctx.env.script_dir f))
      (outPathOf ctx.output_dir f) (basename f)
      ({ st with events := st.events ++
          [Event.writeE (promptPathOf ctx.prompts_dir f)
            (render_task ctx.task_text (basename f)
              (input_relOf ctx.args.bwrap ctx.env.script_dir f))] } : LoopSt).agents.length
      { st with events := st.events ++
          [Event.writeE (promptPathOf ctx.prompts_dir f)
            (render_task ctx.task_text (basename f)
              (input_relOf ctx.args.bwrap ctx.env.script_dir f))] }
      [] with ⟨o, st2, atts2⟩
    rw [htry] at hev hag
    simp only at hev hag
    refine ⟨Event.writeE (promptPathOf ctx.prompts_dir f)
      (render_task ctx.task_text (basename f)
        (input_relOf ctx.args.bwrap ctx.env.script_dir f)) :: tail, ?_, ?_⟩ <;>
      cases o <;>
        simp [processFile, hc2, htry, hev, hag, rlCount, List.filter_cons,
          isRlFailure, List.append_assoc]

theorem processFiles_rotate (ctx : Ctx) :
    ∀ (files : List String) (st : LoopSt),
      ∃ tail, ((processFiles ctx files st).2).events = st.events ++ tail ∧
        ((processFiles ctx files st).2).agents = st.agents.rotate (rlCount tail) := by
  intro files
  induction files with
  | nil =>
      intro st
      exact ⟨[], by simp [processFiles], by simp [processFiles, rlCount]⟩
  | cons f rest ih =>
      intro st
      obtain ⟨t1, hev1, hag1⟩ := processFile_rotate ctx f st
      rcases hpf : processFile ctx f st with ⟨o, st1⟩
      rw [hpf] at hev1 hag1
      simp only at hev1 hag1
      cases o with
      | fatal c =>
          exact ⟨t1, by simp [processFiles, hpf, hev1],
            by simp [processFiles, hpf, hag1]⟩
      | exhausted =>
          exact ⟨t1, by simp [processFiles, hpf, hev1],
            by simp [processFiles, hpf, hag1]⟩
      | skipped =>
          by_cases hs : ctx.args.sample_run = true
          · exact ⟨t1, by simp [processFiles, hpf, hs, hev1],
              by simp [processFiles, hpf, hs, hag1]⟩
          · have hs2 : ctx.args.sample_run = false := by simpa using hs
            obtain ⟨t2, hev2, hag2⟩ := ih st1
            refine ⟨t1 ++ t2, ?_, ?_⟩
            · simp [processFiles, hpf, hs2, hev2, hev1, List.append_assoc]
            · simp only [processFiles, hpf, hs2, Bool.false_eq_true, if_false]
              rw [hag2, hag1, List.rotate_rotate, rlCount_append]
      | success =>
          by_cases hs : ctx.args.sample_run = true
          · exact ⟨t1, by simp [processFiles, hpf, hs, hev1],
              by simp [processFiles, hpf, hs, hag1]⟩
          · have hs2 : ctx.args.sample_run = false := by simpa using hs
            obtain ⟨t2, hev2, hag2⟩ := ih st1
            refine ⟨t1 ++ t2, ?_, ?_⟩
            · simp [processFiles, hpf, hs2, hev2, hev1, List.append_assoc]
            · simp only [processFiles, hpf, hs2, Bool.false_eq_true, if_false]
              rw [hag2, hag1, List.rotate_rotate, rlCount_append]

theorem main_run (env : Env) (args : Args)
    (h1 : strContains env.task_text "\x7b\x7bINPUT_FILE\x7d\x7d" = true)
    (h2 : (inputFilesOf env args).isEmpty = false)
    (h3 : (args.bwrap && !env.bwrap_found) = false)
    (h4 : (agentsOf args.agents).isEmpty = false) :
    Run.main env args =
      match processFiles (ctxOf env args) (inputFilesOf env args)
          (st0Of env args) with
      | (some c, st) => (c, st)
      | (none, st) => (0, st) := by
  simp [Run.main, h1, h2, h3, h4]

theorem main_snd (env : Env) (args : Args)
    (h1 : strContains env.task_text "\x7b\x7bINPUT_FILE\x7d\x7d" = true)
    (h2 : (inputFilesOf env args).isEmpty = false)
    (h3 : (args.bwrap && !env.bwrap_found) = false)
    (h4 : (agentsOf args.agents).isEmpty = false) :
    (Run.main env args).2 =
      (processFiles (ctxOf env args) (inputFilesOf env args)
        (st0Of env args)).2 := by
  rw [main_run env args h1 h2 h3 h4]
  rcases processFiles (ctxOf env args) (inputFilesOf env args)
    (st0Of env args) with ⟨oc, st⟩
  cases oc <;> rfl

theorem tryAgents_allrl (ctx : Ctx) (pt op inf : String) :
    ∀ (fuel : Nat) (st : LoopSt) (atts : List (String × String)),
      fuel ≤ st.agents.length →
      (∀ k, k < fuel → (ctx.env.exec (st.invCount + k)).returncode ≠ 0 ∧
        is_rate_limited (combined_output (ctx.env.exec (st.invCount + k)).stdout
          (ctx.env.exec (st.invCount + k)).stderr) = true) →
      ∃ st2 atts2,
        tryAgents ctx pt op inf fuel st atts = (Outcome.exhausted, st2, atts2) ∧
        st2.invCount = st.invCount + fuel ∧
        ∃ tail, st2.events = st.events ++ tail ∧
          (∀ p c, Event.writeE p c ∈ tail → ∃ q, p = q ++ ".log") := by
  intro fuel
  induction fuel with
  | zero =>
      intro st atts _ _
      exact ⟨st, atts, tryAgents_zero ctx pt op inf st atts, by simp,
        ⟨[], by simp, by simp⟩⟩
  | succ n ih =>
      intro st atts hle hall
      obtain ⟨a, al, ha⟩ : ∃ a al, st.agents = a :: al := by
        cases hsa : st.agents with
        | nil => rw [hsa] at hle; simp at hle
        | cons a al => exact ⟨a, al, rfl⟩
      obtain ⟨h0, hrl⟩ := hall 0 (Nat.succ_pos n)
      rw [Nat.add_zero] at h0 hrl
      rw [tryAgents_succ_rl ctx pt op inf n st atts h0 hrl]
      obtain ⟨st2, atts2, heq, hinv, tail, hev, hlog⟩ := ih
        ⟨st.agents.tail ++ [st.agents.headD ""], st.succeeded, st.failed,
         st.invCount + 1,
         st.events ++ attemptEvents ctx pt inf (st.agents.headD "")
           (ctx.env.exec st.invCount)⟩
        (atts ++ [(st.agents.headD "",
          logPathOf ctx.logs_dir (st.agents.headD "") inf)])
        (by rw [ha]; simp at hle ⊢; rw [ha] at hle; simp at hle; omega)
        (by
          intro k hk
          have := hall (k + 1) (by omega)
          simpa [Nat.add_assoc, Nat.add_comm, Nat.add_left_comm] using this)
      refine ⟨st2, atts2, heq, by simp at hinv ⊢; omega,
        attemptEvents ctx pt inf (st.agents.headD "")
          (ctx.env.exec st.invCount) ++ tail, ?_, ?_⟩
      · rw [hev]; simp [List.append_assoc]
      · intro p c hmem
        rw [List.mem_append] at hmem
        cases hmem with
        | inl hm =>
            simp only [attemptEvents, List.mem_cons, List.mem_singleton] at hm
            rcases hm with h | h | h
            · exact absurd h (by simp)
            · exact absurd h (by simp)
            · rcases h with h | h
              · injection h with hp _
                rw [hp]
                exact logPath_ends ctx.logs_dir (st.agents.headD "") inf
              · exact absurd h (by simp)
        | inr hm => exact hlog p c hm

theorem path_exists_mono (fs0 : List String) (ev t : List Event) (p : String)
    (h : path_exists fs0 ev p = true) :
    path_exists fs0 (ev ++ t) p = true := by
  simp only [path_exists, List.any_append, Bool.or_eq_true] at h ⊢
  rcases h with h | h
  · exact Or.inl h
  · exact Or.inr (Or.inl h)

theorem path_exists_of_write (fs0 : List String) (ev : List Event)
    (p c : String) (h : Event.writeE p c ∈ ev) :
    path_exists fs0 ev p = true := by
  simp only [path_exists, Bool.or_eq_true, List.any_eq_true]
  exact Or.inr ⟨Event.writeE p c, h, by simp [eventTouches]⟩

theorem tryAgents_fst_ne (ctx : Ctx) (pt op inf : String) :
    ∀ (fuel : Nat) (st : LoopSt) (atts : List (String × String)),
      (tryAgents ctx pt op inf fuel st atts).1 ≠ Outcome.skipped ∧
      ∀ c, (tryAgents ctx pt op inf fuel st atts).1 = Outcome.fatal c →
        c ≠ 0 := by
  intro fuel
  induction fuel with
  | zero =>
      intro st atts
      rw [tryAgents_zero]
      exact ⟨by simp, by simp⟩
  | succ n ih =>
      intro st atts
      by_cases h0 : (ctx.env.exec st.invCount).returncode = 0
      · rw [tryAgents_succ_success ctx pt op inf n st atts h0]
        exact ⟨by simp, by simp⟩
      · by_cases hrl : is_rate_limited
            (combined_output (ctx.env.exec st.invCount).stdout
              (ctx.env.exec st.invCount).stderr) = true
        · rw [tryAgents_succ_rl ctx pt op inf n st atts h0 hrl]
          exact ih _ _
        · have hrl2 : is_rate_limited
              (combined_output (ctx.env.exec st.invCount).stdout
                (ctx.env.exec st.invCount).stderr) = false := by simpa using hrl
          rw [tryAgents_succ_fatal ctx pt op inf n st atts h0 hrl2]
          refine ⟨by simp, ?_⟩
          intro c hc
          simp only at hc
          injection hc with hc2
          rw [← hc2]
          exact h0

theorem tryAgents_success_writes (ctx : Ctx) (pt op inf : String) :
    ∀ (fuel : Nat) (st : LoopSt) (atts : List (String × String)) (st2 : LoopSt)
      (atts2 : List (String × String)),
      tryAgents ctx pt op inf fuel st atts = (Outcome.success, st2, atts2) →
      ∃ c, Event.writeE op c ∈ st2.events := by
  intro fuel
  induction fuel with
  | zero =>
      intro st atts st2 atts2 h
      rw [tryAgents_zero] at h
      injection h with h1
      exact absurd h1 (by simp)
  | succ n ih =>
      intro st atts st2 atts2 h
      by_cases h0 : (ctx.env.exec st.invCount).returncode = 0
      · rw [tryAgents_succ_success ctx pt op inf n st atts h0] at h
        injection h with h1 h2
        injection h2 with h2 h3
        refine ⟨(ctx.env.exec st.invCount).stdout, ?_⟩
        rw [← h2]
        simp
      · by_cases hrl : is_rate_limited
            (combined_output (ctx.env.exec st.invCount).stdout
              (ctx.env.exec st.invCount).stderr) = true
        · rw [tryAgents_succ_rl ctx pt op inf n st atts h0 hrl] at h
          exact ih _ _ _ _ h
        · have hrl2 : is_rate_limited
              (combined_output (ctx.env.exec st.invCount).stdout
                (ctx.env.exec st.invCount).stderr) = false := by simpa using hrl
          rw [tryAgents_succ_fatal ctx pt op inf n st atts h0 hrl2] at h
          injection h with h1
          exact absurd h1 (by simp)

theorem processFile_skipped_inv (ctx : Ctx) (f : String) (st st1 : LoopSt)
    (h : processFile ctx f st = (Outcome.skipped, st1)) :
    st1 = { st with succeeded := st.succeeded + 1 } ∧
    path_exists ctx.env.fs0 st.events (outPathOf ctx.output_dir f) = true := by
  by_cases hc : (path_exists ctx.env.fs0 st.events (outPathOf ctx.output_dir f) &&
      !ctx.args.force_rerun) = true
  · refine ⟨?_, (Bool.and_eq_true _ _ |>.mp hc).1⟩
    simp only [processFile, hc, if_true] at h
    injection h with h1 h2
    exact h2.symm
  · have hc2 : (path_exists ctx.env.fs0 st.events (outPathOf ctx.output_dir f) &&
        !ctx.args.force_rerun) = false := by simpa using hc
    exfalso
    simp only [processFile, hc2, Bool.false_eq_true, if_false] at h
    split at h <;> simp at h

theorem processFile_success_out (ctx : Ctx) (f : String) (st st1 : LoopSt)
    (h : processFile ctx f st = (Outcome.success, st1)) :
    ∃ c, Event.writeE (outPathOf ctx.output_dir f) c ∈ st1.events := by
  by_cases hc : (path_exists ctx.env.fs0 st.events (outPathOf ctx.output_dir f) &&
      !ctx.args.force_rerun) = true
  · simp only [processFile, hc, if_true] at h
    simp at h
  · have hc2 : (path_exists ctx.env.fs0 st.events (outPathOf ctx.output_dir f) &&
        !ctx.args.force_rerun) = false := by simpa using hc
    simp only [processFile, hc2, Bool.false_eq_true, if_false] at h
    split at h
    · simp at h
    · simp at h
    · next o st2 atts2 hne1 hne2 heq =>
        injection h with h1 h2
        rw [← h2]
        cases o with
        | skipped =>
            exact absurd (by rw [heq]) (tryAgents_fst_ne ctx _ _ _ _ _ _).1
        | success => exact tryAgents_success_writes ctx _ _ _ _ _ _ _ _ heq
        | fatal c => exact (hne1 c rfl).elim
        | exhausted => exact (hne2 rfl).elim



theorem processFile_fatal_ne_zero (ctx : Ctx) (f : String) (st st1 : LoopSt)
    (c : Int) (h : processFile ctx f st = (Outcome.fatal c, st1)) : c ≠ 0 := by
  by_cases hc : (path_exists ctx.env.fs0 st.events (outPathOf ctx.output_dir f) &&
      !ctx.args.force_rerun) = true
  · simp only [processFile, hc, if_true] at h
    simp at h
  · have hc2 : (path_exists ctx.env.fs0 st.events (outPathOf ctx.output_dir f) &&
        !ctx.args.force_rerun) = false := by simpa using hc
    simp only [processFile, hc2, Bool.false_eq_true, if_false] at h
    split at h
    · next c2 st2 atts2 heq =>
        injection h with h1 h2
        injection h1 with h1
        rw [← h1]
        exact (tryAgents_fst_ne ctx _ _ _ _ _ _).2 c2 (by rw [heq])
    · simp at h
    · simp at h

theorem processFile_skip (ctx : Ctx) (f : String) (st : LoopSt)
    (h1 : path_exists ctx.env.fs0 st.events (outPathOf ctx.output_dir f) = true)
    (h2 : ctx.args.force_rerun = false) :
    processFile ctx f st =
      (Outcome.skipped, { st with succeeded := st.succeeded + 1 }) := by
  simp [processFile, h1, h2]

theorem processFiles_some_ne_zero (ctx : Ctx) :
    ∀ (files : List String) (st : LoopSt) (c : Int) (st2 : LoopSt),
      processFiles ctx files st = (some c, st2) → c ≠ 0 := by
  intro files
  induction files with
  | nil => intro st c st2 h; simp [processFiles] at h
  | cons f rest ih =>
      intro st c st2 h
      rcases hpf : processFile ctx f st with ⟨o, st1⟩
      cases o with
      | fatal c2 =>
          simp only [processFiles, hpf] at h
          injection h with h1 h2
          injection h1 with h1
          rw [← h1]
          exact processFile_fatal_ne_zero ctx f st st1 c2 hpf
      | exhausted =>
          simp only [processFiles, hpf] at h
          injection h with h1 h2
          injection h1 with h1
          rw [← h1]
          decide
      | skipped =>
          simp only [processFiles, hpf] at h
          by_cases hs : ctx.args.sample_run = true
          · rw [if_pos hs] at h; simp at h
          · rw [if_neg hs] at h; exact ih st1 c st2 h
      | success =>
          simp only [processFiles, hpf] at h
          by_cases hs : ctx.args.sample_run = true
          · rw [if_pos hs] at h; simp at h
          · rw [if_neg hs] at h; exact ih st1 c st2 h

theorem processFiles_complete (ctx : Ctx) (hs : ctx.args.sample_run = false) :
    ∀ (files : List String) (st st2 : LoopSt),
      processFiles ctx files st = (none, st2) →
      ∀ f ∈ files,
        path_exists ctx.env.fs0 st2.events (outPathOf ctx.output_dir f) = true := by
  intro files
  induction files with
  | nil => intro st st2 h f hf; simp at hf
  | cons g rest ih =>
      intro st st2 h f hf
      rcases hpf : processFile ctx g st with ⟨o, st1⟩
      cases o with
      | fatal c2 => simp only [processFiles, hpf] at h; simp at h
      | exhausted => simp only [processFiles, hpf] at h; simp at h
      | skipped =>
          simp only [processFiles, hpf, hs, Bool.false_eq_true, if_false] at h
          rcases List.mem_cons.mp hf with hfg | hfr
          · obtain ⟨hst1, hpe⟩ := processFile_skipped_inv ctx g st st1 hpf
            obtain ⟨tail, hev, _⟩ := processFiles_rotate ctx rest st1
            rw [h] at hev
            simp only at hev
            rw [hfg, hev, hst1]
            exact path_exists_mono _ _ _ _ hpe
          · exact ih st1 st2 h f hfr
      | success =>
          simp only [processFiles, hpf, hs, Bool.false_eq_true, if_false] at h
          rcases List.mem_cons.mp hf with hfg | hfr
          · obtain ⟨c, hc⟩ := processFile_success_out ctx g st st1 hpf
            obtain ⟨tail, hev, _⟩ := processFiles_rotate ctx rest st1
            rw [h] at hev
            simp only at hev
            rw [hfg, hev]
            exact path_exists_of_write _ _ _ c (List.mem_append.mpr (Or.inl hc))
          · exact ih st1 st2 h f hfr

theorem processFiles_allskip (ctx : Ctx) (hforce : ctx.args.force_rerun = false)
    (hs : ctx.args.sample_run = false) :
    ∀ (files : List String) (st : LoopSt),
      (∀ f ∈ files, ctx.env.fs0.contains (outPathOf ctx.output_dir f) = true) →
      processFiles ctx files st =
        (none, { st with succeeded := st.succeeded + files.length }) := by
  intro files
  induction files with
  | nil => intro st _; rfl
  | cons g rest ih =>
      intro st hall
      have hpe : path_exists ctx.env.fs0 st.events (outPathOf ctx.output_dir g) = true := by
        simp only [path_exists, Bool.or_eq_true]
        exact Or.inl (hall g (by simp))
      simp only [processFiles, processFile_skip ctx g st hpe hforce, hs,
        Bool.false_eq_true, if_false]
      rw [ih _ (fun f hf => hall f (List.mem_cons_of_mem g hf))]
      have harith : st.succeeded + 1 + rest.length =
          st.succeeded + (rest.length + 1) := by omega
      simp only [List.length_cons]
      rw [harith]

theorem contains_afterRun (env : Env) (args : Args) (p : String)
    (h : path_exists env.fs0 ((Run.main env args).2).events p = true) :
    ((afterRun env args).fs0).contains p = true := by
  simp only [afterRun, List.contains]
  rw [List.elem_iff, List.mem_append]
  simp only [path_exists, Bool.or_eq_true, List.any_eq_true,
    List.contains, List.elem_iff] at h
  rcases h with h | ⟨e, hme, hte⟩
  · exact Or.inl h
  · right
    simp only [eventPathsOf, List.mem_filterMap]
    refine ⟨e, hme, ?_⟩
    cases e with
    | mkdirE q => simp [eventTouches] at hte; rw [hte]
    | writeE q c => simp [eventTouches] at hte; rw [hte]
    | invokeE a cl r => simp [eventTouches] at hte

theorem main_zero_inv (env : Env) (args : Args)
    (h0 : (Run.main env args).1 = 0) :
    strContains env.task_text "\x7b\x7bINPUT_FILE\x7d\x7d" = true ∧
    (inputFilesOf env args).isEmpty = false ∧
    (args.bwrap && !env.bwrap_found) = false ∧
    (agentsOf args.agents).isEmpty = false ∧
    processFiles (ctxOf env args) (inputFilesOf env args) (st0Of env args) =
      (none, (Run.main env args).2) := by
  by_cases g1 : strContains env.task_text "\x7b\x7bINPUT_FILE\x7d\x7d" = true
  case neg =>
    have g1f : strContains env.task_text "\x7b\x7bINPUT_FILE\x7d\x7d" = false := by
      simpa using g1
    simp [Run.main, g1f] at h0
  by_cases g2 : (inputFilesOf env args).isEmpty = false
  case neg =>
    have g2t : (inputFilesOf env args).isEmpty = true := by simpa using g2
    simp [Run.main, g1, g2t] at h0
  by_cases g3 : (args.bwrap && !env.bwrap_found) = false
  case neg =>
    have g3t : (args.bwrap && !env.bwrap_found) = true := by simpa using g3
    simp [Run.main, g1, g2, g3t] at h0
  by_cases g4 : (agentsOf args.agents).isEmpty = false
  case neg =>
    have g4t : (agentsOf args.agents).isEmpty = true := by simpa using g4
    simp [Run.main, g1, g2, g3, g4t] at h0
  refine ⟨g1, g2, g3, g4, ?_⟩
  have hrun := main_run env args g1 g2 g3 g4
  rcases hp : processFiles (ctxOf env args) (inputFilesOf env args)
    (st0Of env args) with ⟨oc, st⟩
  rw [hp] at hrun
  cases oc with
  | some c =>
      simp only at hrun
      rw [hrun] at h0
      simp only at h0
      exact absurd (h0 ▸ hp) (by
        intro hx
        exact processFiles_some_ne_zero (ctxOf env args) _ _ _ _
          (by rw [hp, h0]) rfl)
  | none =>
      simp only at hrun
      rw [hrun]


/-! ### Claim theorems -/

/-- C1: in the concrete run with input files `[f1.txt]` and agent queue
`[A, B, C]`, where A and B exit non-zero with rate-limit text and C exits 0
with stdout `RESULT`, the controller writes attempt log files for A, B and C,
writes `RESULT` as the output artifact `output/f1.json`, leaves the queue as
`[C, A, B]`, and the process exits with code 0. -/
theorem c1_concrete_run :
    (Run.main envC1 argsC1).1 = 0 ∧
    ((Run.main envC1 argsC1).2).events.any
      (isWriteTo "/w/output/logs/A/f1.txt.log") = true ∧
    ((Run.main envC1 argsC1).2).events.any
      (isWriteTo "/w/output/logs/B/f1.txt.log") = true ∧
    ((Run.main envC1 argsC1).2).events.any
      (isWriteTo "/w/output/logs/C/f1.txt.log") = true ∧
    Event.writeE "/w/output/f1.json" "RESULT" ∈
      ((Run.main envC1 argsC1).2).events ∧
    ((Run.main envC1 argsC1).2).agents = ["C", "A", "B"] := by
  decide

/-- C2: a fatal failure aborts the whole run with the agent's exit code.
(i) An attempt whose invocation exits non-zero without the rate-limit
signature ends the agent loop at once with `fatal` carrying that exit code,
the trace gaining only that attempt's events; (ii) a file that ends `fatal c`
aborts the file loop immediately with code `c` — the remaining files
contribute nothing; (iii) an aborting file loop's code becomes the process
exit code; (iv) end to end: when the first attempted invocation of a run is
such a failure, the process exits with that agent's exit code and the final
trace stops at that attempt — no further invocations, no prompts or logs for
any later file. -/
theorem c2_fatal_abort :
    (∀ (ctx : Ctx) (pt op inf : String) (n : Nat) (st : LoopSt)
        (atts : List (String × String)),
      (ctx.env.exec st.invCount).returncode ≠ 0 →
      is_rate_limited (combined_output (ctx.env.exec st.invCount).stdout
        (ctx.env.exec st.invCount).stderr) = false →
      tryAgents ctx pt op inf (n + 1) st atts =
        (Outcome.fatal (ctx.env.exec st.invCount).returncode,
         ⟨st.agents, st.succeeded, st.failed + 1, st.invCount + 1,
          st.events ++ attemptEvents ctx pt inf (st.agents.headD "")
            (ctx.env.exec st.invCount)⟩,
         atts ++ [(st.agents.headD "",
           logPathOf ctx.logs_dir (st.agents.headD "") inf)])) ∧
    (∀ (ctx : Ctx) (f : String) (rest : List String) (st st1 : LoopSt)
        (c : Int),
      processFile ctx f st = (Outcome.fatal c, st1) →
      processFiles ctx (f :: rest) st = (some c, st1)) ∧
    (∀ (env : Env) (args : Args) (c : Int) (st : LoopSt),
      strContains env.task_text "\x7b\x7bINPUT_FILE\x7d\x7d" = true →
      (inputFilesOf env args).isEmpty = false →
      (args.bwrap && !env.bwrap_found) = false →
      (agentsOf args.agents).isEmpty = false →
      processFiles (ctxOf env args) (inputFilesOf env args)
        (st0Of env args) = (some c, st) →
      Run.main env args = (c, st)) ∧
    (∀ (env : Env) (args : Args) (f : String) (rest : List String),
      strContains env.task_text "\x7b\x7bINPUT_FILE\x7d\x7d" = true →
      inputFilesOf env args = f :: rest →
      (args.bwrap && !env.bwrap_found) = false →
      (agentsOf args.agents).isEmpty = false →
      (path_exists env.fs0 (st0Of env args).events
        (outPathOf (output_dirOf env args) f) && !args.force_rerun) = false →
      (env.exec 0).returncode ≠ 0 →
      is_rate_limited (combined_output (env.exec 0).stdout
        (env.exec 0).stderr) = false →
      Run.main env args =
        ((env.exec 0).returncode,
         ⟨agentsOf args.agents, 0, 1, 1,
          (st0Of env args).events ++
            [Event.writeE (promptPathOf (prompts_dirOf env args) f)
              (render_task env.task_text (basename f)
                (input_relOf args.bwrap env.script_dir f))] ++
            attemptEvents (ctxOf env args)
              (render_task env.task_text (basename f)
                (input_relOf args.bwrap env.script_dir f))
              (basename f) ((agentsOf args.agents).headD "") (env.exec 0)⟩)) := by
  refine ⟨?_, ?_, ?_, ?_⟩
  · intro ctx pt op inf n st atts h0 hrl
    exact tryAgents_succ_fatal ctx pt op inf n st atts h0 hrl
  · intro ctx f rest st st1 c h
    simp only [processFiles, h]
  · intro env args c st h1 h2 h3 h4 h5
    rw [main_run env args h1 h2 h3 h4, h5]
  · intro env args f rest h1 h2 h3 h4 h5 h6 h7
    obtain ⟨a, al, hal⟩ : ∃ a al, agentsOf args.agents = a :: al := by
      cases hq : agentsOf args.agents with
      | nil => rw [hq] at h4; simp at h4
      | cons a al => exact ⟨a, al, rfl⟩
    rw [main_run env args h1 (by rw [h2]; simp) h3 h4, h2]
    have hfatal := tryAgents_succ_fatal (ctxOf env args)
      (render_task env.task_text (basename f)
        (input_relOf args.bwrap env.script_dir f))
      (outPathOf (output_dirOf env args) f) (basename f) al.length
      { st0Of env args with
        events := (st0Of env args).events ++
          [Event.writeE (promptPathOf (prompts_dirOf env args) f)
            (render_task env.task_text (basename f)
              (input_relOf args.bwrap env.script_dir f))] }
      [] h6 h7
    have h5e : (path_exists env.fs0 [Event.mkdirE (prompts_dirOf env args),
        Event.mkdirE (logs_dirOf env args)]
          (outPathOf (output_dirOf env args) f) && !args.force_rerun) = false := by
      simpa [st0Of] using h5
    simp only [processFiles, processFile, ctxOf, st0Of, hal, List.length_cons,
      h5e, Bool.false_eq_true, if_false, List.headD_cons] at hfatal ⊢
    rw [hfatal]

/-- Witness for C2: in `envW2` the first invocation exits 5 with output
`boom`, and the whole run exits 5 having touched only the first file. -/
theorem c2_fatal_abort_witness :
    (envW2.exec 0).returncode ≠ 0 ∧
    is_rate_limited (combined_output (envW2.exec 0).stdout
      (envW2.exec 0).stderr) = false ∧
    Run.main envW2 argsW2 =
      ((envW2.exec 0).returncode,
       ⟨agentsOf argsW2.agents, 0, 1, 1,
        (st0Of envW2 argsW2).events ++
          [Event.writeE (promptPathOf (prompts_dirOf envW2 argsW2)
              "/w/input/f1.txt")
            (render_task envW2.task_text (basename "/w/input/f1.txt")
              (input_relOf argsW2.bwrap envW2.script_dir "/w/input/f1.txt"))] ++
          attemptEvents (ctxOf envW2 argsW2)
            (render_task envW2.task_text (basename "/w/input/f1.txt")
              (input_relOf argsW2.bwrap envW2.script_dir "/w/input/f1.txt"))
            (basename "/w/input/f1.txt")
            ((agentsOf argsW2.agents).headD "") (envW2.exec 0)⟩) :=
  ⟨by decide, by decide,
   c2_fatal_abort.2.2.2 envW2 argsW2 "/w/input/f1.txt" ["/w/input/f2.txt"]
     (by decide) (by decide) (by decide) (by decide) (by decide) (by decide)
     (by decide)⟩

/-- C3: exhausting the queue through rate limits aborts the run with code 3.
(i) If every remaining try of the agent loop hits a non-zero, rate-limited
invocation, the loop ends `exhausted` after exactly that many invocations,
and every file write it adds is a log file (none is an output artifact);
(ii) a file that ends `exhausted` aborts the file loop immediately with
code 3 — the remaining files contribute nothing; (iii) the aborting code
becomes the process exit code; (iv) end to end: if the first unskipped file
of a run has every agent in the queue rate limited, the process exits 3
after exactly `|queue|` invocations and nothing in the whole trace writes
that file's output artifact. -/
theorem c3_all_rate_limited :
    (∀ (ctx : Ctx) (pt op inf : String) (fuel : Nat) (st : LoopSt)
        (atts : List (String × String)),
      fuel ≤ st.agents.length →
      (∀ k, k < fuel → (ctx.env.exec (st.invCount + k)).returncode ≠ 0 ∧
        is_rate_limited (combined_output
          (ctx.env.exec (st.invCount + k)).stdout
          (ctx.env.exec (st.invCount + k)).stderr) = true) →
      ∃ st2 atts2,
        tryAgents ctx pt op inf fuel st atts =
          (Outcome.exhausted, st2, atts2) ∧
        st2.invCount = st.invCount + fuel ∧
        ∃ tail, st2.events = st.events ++ tail ∧
          (∀ p c, Event.writeE p c ∈ tail → ∃ q, p = q ++ ".log")) ∧
    (∀ (ctx : Ctx) (f : String) (rest : List String) (st st1 : LoopSt),
      processFile ctx f st = (Outcome.exhausted, st1) →
      processFiles ctx (f :: rest) st = (some 3, st1)) ∧
    (∀ (env : Env) (args : Args) (st : LoopSt),
      strContains env.task_text "\x7b\x7bINPUT_FILE\x7d\x7d" = true →
      (inputFilesOf env args).isEmpty = false →
      (args.bwrap && !env.bwrap_found) = false →
      (agentsOf args.agents).isEmpty = false →
      processFiles (ctxOf env args) (inputFilesOf env args)
        (st0Of env args) = (some 3, st) →
      Run.main env args = (3, st)) ∧
    (∀ (env : Env) (args : Args) (f : String) (rest : List String),
      strContains env.task_text "\x7b\x7bINPUT_FILE\x7d\x7d" = true →
      inputFilesOf env args = f :: rest →
      (args.bwrap && !env.bwrap_found) = false →
      (agentsOf args.agents).isEmpty = false →
      (path_exists env.fs0 (st0Of env args).events
        (outPathOf (output_dirOf env args) f) && !args.force_rerun) = false →
      (∀ k, k < (agentsOf args.agents).length →
        (env.exec k).returncode ≠ 0 ∧
        is_rate_limited (combined_output (env.exec k).stdout
          (env.exec k).stderr) = true) →
      ∃ st, Run.main env args = (3, st) ∧
        st.invCount = (agentsOf args.agents).length ∧
        ∀ p c, Event.writeE p c ∈ st.events →
          p ≠ outPathOf (output_dirOf env args) f) := by
  refine ⟨?_, ?_, ?_, ?_⟩
  · intro ctx pt op inf fuel st atts hle hall
    exact tryAgents_allrl ctx pt op inf fuel st atts hle hall
  · intro ctx f rest st st1 h
    simp only [processFiles, h]
  · intro env args st h1 h2 h3 h4 h5
    rw [main_run env args h1 h2 h3 h4, h5]
  · intro env args f rest h1 h2 h3 h4 h5 hall
    have h5e : (path_exists env.fs0 [Event.mkdirE (prompts_dirOf env args),
        Event.mkdirE (logs_dirOf env args)]
          (outPathOf (output_dirOf env args) f) && !args.force_rerun) = false := by
      simpa [st0Of] using h5
    obtain ⟨st2, atts2, heq, hinv, tail, hev, hlog⟩ :=
      tryAgents_allrl (ctxOf env args)
        (render_task env.task_text (basename f)
          (input_relOf args.bwrap env.script_dir f))
        (outPathOf (output_dirOf env args) f) (basename f)
        ((agentsOf args.agents).length)
        { st0Of env args with
          events := (st0Of env args).events ++
            [Event.writeE (promptPathOf (prompts_dirOf env args) f)
              (render_task env.task_text (basename f)
                (input_relOf args.bwrap env.script_dir f))] }
        [] (by simp [st0Of])
        (by intro k hk; simpa [ctxOf, st0Of] using hall k hk)
    refine ⟨⟨st2.agents, st2.succeeded, st2.failed + 1, st2.invCount,
      st2.events⟩, ?_, ?_, ?_⟩
    · rw [main_run env args h1 (by rw [h2]; simp) h3 h4, h2]
      simp only [processFiles, processFile, ctxOf, st0Of, h5e,
        Bool.false_eq_true, if_false] at heq ⊢
      rw [heq]
    · simpa [st0Of] using hinv
    · intro p c hmem
      simp only [st0Of] at hev
      rw [hev] at hmem
      rw [List.mem_append] at hmem
      cases hmem with
      | inl hm =>
          have hp : p = promptPathOf (prompts_dirOf env args) f := by
            simp at hm
            exact hm.1
          rw [hp]
          obtain ⟨q1, hq1⟩ := promptPath_ends (prompts_dirOf env args) f
          obtain ⟨q2, hq2⟩ := outPath_ends (output_dirOf env args) f
          rw [hq1, hq2]
          exact promptmd_ne_json q1 q2
      | inr hm =>
          obtain ⟨q1, hq1⟩ := hlog p c hm
          obtain ⟨q2, hq2⟩ := outPath_ends (output_dirOf env args) f
          rw [hq1, hq2]
          exact log_ne_json q1 q2

/-- Witness for C3: with agents `A,B` and every invocation rate limited, the
run on `envW3` exits 3 after exactly two invocations and never writes
`f1.txt`'s output artifact. -/
theorem c3_all_rate_limited_witness :
    (∀ k, k < (agentsOf argsW2.agents).length →
      (envW3.exec k).returncode ≠ 0 ∧
      is_rate_limited (combined_output (envW3.exec k).stdout
        (envW3.exec k).stderr) = true) ∧
    ∃ st, Run.main envW3 argsW2 = (3, st) ∧
      st.invCount = (agentsOf argsW2.agents).length ∧
      ∀ p c, Event.writeE p c ∈ st.events →
        p ≠ outPathOf (output_dirOf envW3 argsW2) "/w/input/f1.txt" :=
  ⟨by decide,
   c3_all_rate_limited.2.2.2 envW3 argsW2 "/w/input/f1.txt"
     ["/w/input/f2.txt"] (by decide) (by decide) (by decide) (by decide)
     (by decide) (by decide)⟩

/-- C4: under the guards that let a run reach its file loop, the final queue
is exactly the initial agent list rotated once per rate-limited invocation of
the whole run (rotations persisting across files), that rotation count may be
reduced modulo the queue length, and the final queue is a permutation of the
initial list — no agent is duplicated or dropped. -/
theorem c4_queue_rotation (env : Env) (args : Args)
    (h1 : strContains env.task_text "\x7b\x7bINPUT_FILE\x7d\x7d" = true)
    (h2 : (inputFilesOf env args).isEmpty = false)
    (h3 : (args.bwrap && !env.bwrap_found) = false)
    (h4 : (agentsOf args.agents).isEmpty = false) :
    ((Run.main env args).2).agents =
      (agentsOf args.agents).rotate (rlCount ((Run.main env args).2).events) ∧
    (agentsOf args.agents).rotate (rlCount ((Run.main env args).2).events) =
      (agentsOf args.agents).rotate
        (rlCount ((Run.main env args).2).events %
          (agentsOf args.agents).length) ∧
    ((Run.main env args).2).agents.Perm (agentsOf args.agents) := by
  have hsnd := main_snd env args h1 h2 h3 h4
  obtain ⟨tail, hev, hag⟩ := processFiles_rotate (ctxOf env args)
    (inputFilesOf env args) (st0Of env args)
  have hag2 : ((Run.main env args).2).agents =
      (agentsOf args.agents).rotate (rlCount ((Run.main env args).2).events) := by
    rw [hsnd, hag, hev]
    simp [st0Of, rlCount_append, rlCount, List.filter, isRlFailure]
  refine ⟨hag2, (List.rotate_mod _ _).symm, ?_⟩
  rw [hag2]
  exact List.rotate_perm _ _

/-- Witness for C4: in the concrete `envC1` run (two rate-limited attempts),
the final queue `[C, A, B]` is the initial `[A, B, C]` rotated twice, and a
permutation of it. -/
theorem c4_queue_rotation_witness :
    ((Run.main envC1 argsC1).2).agents =
      (agentsOf argsC1.agents).rotate
        (rlCount ((Run.main envC1 argsC1).2).events) ∧
    (agentsOf argsC1.agents).rotate
        (rlCount ((Run.main envC1 argsC1).2).events) =
      (agentsOf argsC1.agents).rotate
        (rlCount ((Run.main envC1 argsC1).2).events %
          (agentsOf argsC1.agents).length) ∧
    ((Run.main envC1 argsC1).2).agents.Perm (agentsOf argsC1.agents) :=
  c4_queue_rotation envC1 argsC1 (by decide) (by decide) (by decide)
    (by decide)

/-- C5: (i) a file whose output artifact exists is, when re-run is not
forced, counted as succeeded and skipped with no invocation and no log
entries — the state is unchanged except the success counter; (ii) running the
program a second time over the world the first (fully successful, non-sample)
run produced performs no agent invocations and writes nothing: its whole
trace is the two idempotent directory creations, with every file counted as
succeeded. -/
theorem c5_skip_idempotence :
    (∀ (ctx : Ctx) (f : String) (st : LoopSt),
      path_exists ctx.env.fs0 st.events (outPathOf ctx.output_dir f) = true →
      ctx.args.force_rerun = false →
      processFile ctx f st =
        (Outcome.skipped, { st with succeeded := st.succeeded + 1 })) ∧
    (∀ (env : Env) (args : Args),
      args.sample_run = false → args.force_rerun = false →
      (Run.main env args).1 = 0 →
      Run.main (afterRun env args) args =
        (0, ⟨agentsOf args.agents, (inputFilesOf env args).length, 0, 0,
             [Event.mkdirE (prompts_dirOf env args),
              Event.mkdirE (logs_dirOf env args)]⟩)) := by
  constructor
  · exact processFile_skip
  · intro env args hs hf h0
    obtain ⟨g1, g2, g3, g4, hnone⟩ := main_zero_inv env args h0
    have hcomp := processFiles_complete (ctxOf env args) hs
      (inputFilesOf env args) (st0Of env args) ((Run.main env args).2) hnone
    have hall : ∀ f ∈ inputFilesOf env args,
        (((ctxOf (afterRun env args) args).env.fs0).contains
          (outPathOf ((ctxOf (afterRun env args) args).output_dir) f)) = true := by
      intro f hf2
      exact contains_afterRun env args _ (hcomp f hf2)
    rw [main_run (afterRun env args) args g1 g2 g3 g4]
    rw [processFiles_allskip (ctxOf (afterRun env args) args) hf hs
      (inputFilesOf (afterRun env args) args)
      (st0Of (afterRun env args) args) hall]
    simp [st0Of]
    refine ⟨rfl, rfl, rfl⟩

/-- Witness for C5: in `envC6` (artifact of `f1.txt` already on disk) the
file is skipped with only the success counter bumped, and a second run after
the first performs no invocations and no writes. -/
theorem c5_skip_idempotence_witness :
    processFile (ctxOf envC6 argsC1) "/w/input/f1.txt" (st0Of envC6 argsC1) =
      (Outcome.skipped,
       { st0Of envC6 argsC1 with
         succeeded := (st0Of envC6 argsC1).succeeded + 1 }) ∧
    Run.main (afterRun envC6 argsC1) argsC1 =
      (0, ⟨agentsOf argsC1.agents, (inputFilesOf envC6 argsC1).length, 0, 0,
           [Event.mkdirE (prompts_dirOf envC6 argsC1),
            Event.mkdirE (logs_dirOf envC6 argsC1)]⟩) :=
  ⟨c5_skip_idempotence.1 (ctxOf envC6 argsC1) "/w/input/f1.txt"
     (st0Of envC6 argsC1) (by decide) (by decide),
   c5_skip_idempotence.2 envC6 argsC1 (by decide) (by decide) (by decide)⟩

/-- Counterexample to C6 as stated: in `envC6` the file `f1.txt` is
enumerated, the run completes with exit code 0, yet no rendered task is ever
written to its prompts-directory path, because the file is skipped. -/
theorem c6_counterexample :
    "/w/input/f1.txt" ∈ inputFilesOf envC6 argsC1 ∧
    (Run.main envC6 argsC1).1 = 0 ∧
    ((Run.main envC6 argsC1).2).events.any
      (isWriteTo (promptPathOf (prompts_dirOf envC6 argsC1)
        "/w/input/f1.txt")) = false := by
  decide

/-- C6 (amended): for every input file that is actually attempted — reached
by the loop and not skipped — the rendered task is written to
`<output>/prompts/<file>.prompt.md`, and this write precedes every event of
the attempt loop (in particular every agent invocation for the file). -/
theorem c6_prompt_before_invocation (ctx : Ctx) (f : String) (st : LoopSt)
    (h : (path_exists ctx.env.fs0 st.events (outPathOf ctx.output_dir f) &&
      !ctx.args.force_rerun) = false) :
    ∃ o st2 tail,
      processFile ctx f st = (o, st2) ∧
      st2.events = st.events ++
        Event.writeE (promptPathOf ctx.prompts_dir f)
          (render_task ctx.task_text (basename f)
            (input_relOf ctx.args.bwrap ctx.env.script_dir f)) :: tail := by
  obtain ⟨tail, hev, hag⟩ := tryAgents_rotate ctx
    (render_task ctx.task_text (basename f)
      (input_relOf ctx.args.bwrap ctx.env.script_dir f))
    (outPathOf ctx.output_dir f) (basename f)
    ({ st with events := st.events ++
        [Event.writeE (promptPathOf ctx.prompts_dir f)
          (render_task ctx.task_text (basename f)
            (input_relOf ctx.args.bwrap ctx.env.script_dir f))] } : LoopSt).agents.length
    { st with events := st.events ++
        [Event.writeE (promptPathOf ctx.prompts_dir f)
          (render_task ctx.task_text (basename f)
            (input_relOf ctx.args.bwrap ctx.env.script_dir f))] }
    [] (le_refl _)
  rcases htry : tryAgents ctx
    (render_task ctx.task_text (basename f)
      (input_relOf ctx.args.bwrap ctx.env.script_dir f))
    (outPathOf ctx.output_dir f) (basename f)
    ({ st with events := st.events ++
        [Event.writeE (promptPathOf ctx.prompts_dir f)
          (render_task ctx.task_text (basename f)
            (input_relOf ctx.args.bwrap ctx.env.script_dir f))] } : LoopSt).agents.length
    { st with events := st.events ++
        [Event.writeE (promptPathOf ctx.prompts_dir f)
          (render_task ctx.task_text (basename f)
            (input_relOf ctx.args.bwrap ctx.env.script_dir f))] }
    [] with ⟨o, st2, atts2⟩
  rw [htry] at hev
  simp only at hev
  cases o with
  | skipped =>
      exact ⟨Outcome.success, st2, tail,
        by simp [processFile, h, htry], by simpa [List.append_assoc] using hev⟩
  | success =>
      exact ⟨Outcome.success, st2, tail,
        by simp [processFile, h, htry], by simpa [List.append_assoc] using hev⟩
  | fatal c =>
      exact ⟨Outcome.fatal c, st2, tail,
        by simp [processFile, h, htry], by simpa [List.append_assoc] using hev⟩
  | exhausted =>
      exact ⟨Outcome.exhausted, { st2 with failed := st2.failed + 1 }, tail,
        by simp [processFile, h, htry], by simpa [List.append_assoc] using hev⟩

/-- Witness for the amended C6: in the `envC1` run, processing `f1.txt`
starts by writing its rendered prompt. -/
theorem c6_prompt_before_invocation_witness :
    ∃ o st2 tail,
      processFile (ctxOf envC1 argsC1) "/w/input/f1.txt"
        (st0Of envC1 argsC1) = (o, st2) ∧
      st2.events = (st0Of envC1 argsC1).events ++
        Event.writeE (promptPathOf (ctxOf envC1 argsC1).prompts_dir
            "/w/input/f1.txt")
          (render_task (ctxOf envC1 argsC1).task_text
            (basename "/w/input/f1.txt")
            (input_relOf (ctxOf envC1 argsC1).args.bwrap
              (ctxOf envC1 argsC1).env.script_dir "/w/input/f1.txt")) ::
          tail :=
  c6_prompt_before_invocation (ctxOf envC1 argsC1) "/w/input/f1.txt"
    (st0Of envC1 argsC1) (by decide)

/-- C7: when the template lacks the placeholder token `{{INPUT_FILE}}`, the
run returns the configuration-error exit code 2 with a completely empty
state: no directory creations, no writes, no invocations. -/
theorem c7_missing_token_aborts (env : Env) (args : Args)
    (h : strContains env.task_text "\x7b\x7bINPUT_FILE\x7d\x7d" = false) :
    Run.main env args = (2, emptySt) := by
  simp [Run.main, h]

/-- Witness for C7: `envW7`'s template has no placeholder, and its run exits
2 having touched nothing. -/
theorem c7_missing_token_aborts_witness :
    strContains envW7.task_text "\x7b\x7bINPUT_FILE\x7d\x7d" = false ∧
    Run.main envW7 argsC1 = (2, emptySt) :=
  ⟨by decide, c7_missing_token_aborts envW7 argsC1 (by decide)⟩

/-- C8: the input enumerator returns the path itself for a regular file, and
for a directory exactly its regular-file entries — no non-file entry — as a
permutation sorted by base name. -/
theorem c8_input_enumerator (p : String) (es : List DirEntry) :
    list_input_files PathKind.regular p = [p] ∧
    (list_input_files (PathKind.directory es) p).Perm
      ((es.filter (fun e => e.isFile)).map (fun e => pjoin p e.name)) ∧
    (list_input_files (PathKind.directory es) p).Pairwise
      (fun q r => basename q ≤ basename r) := by
  refine ⟨rfl, ?_, ?_⟩
  · exact sortByBase_perm _
  · exact sortByBase_pairwise _

/-- C9: a failed attempt is classified as rate limited exactly when the
lowercased combined output contains one of the four fixed substrings; on such
an attempt the loop rotates the front agent to the back of the queue, appends
an attempt record, and continues with the next agent for the same file. -/
theorem c9_rate_limit_classification :
    (∀ s : String, is_rate_limited s = true ↔
      ∃ t ∈ (["rate limit", "rate-limit", "too many requests", "429"] :
        List String), t.data <:+: (pyLower s).data) ∧
    (∀ (ctx : Ctx) (pt op inf : String) (fuel : Nat) (st : LoopSt)
        (atts : List (String × String)),
      (ctx.env.exec st.invCount).returncode ≠ 0 →
      is_rate_limited (combined_output (ctx.env.exec st.invCount).stdout
        (ctx.env.exec st.invCount).stderr) = true →
      tryAgents ctx pt op inf (fuel + 1) st atts =
        tryAgents ctx pt op inf fuel
          ⟨st.agents.tail ++ [st.agents.headD ""], st.succeeded, st.failed,
           st.invCount + 1,
           st.events ++ attemptEvents ctx pt inf (st.agents.headD "")
             (ctx.env.exec st.invCount)⟩
          (atts ++ [(st.agents.headD "",
            logPathOf ctx.logs_dir (st.agents.headD "") inf)])) := by
  constructor
  · intro s
    simp only [is_rate_limited, List.any_eq_true, strContains, hasSub_iff]
  · intro ctx pt op inf fuel st atts h0 hrl
    exact tryAgents_succ_rl ctx pt op inf fuel st atts h0 hrl

/-- Witness for C9: a concrete rate-limited first attempt (exit 1, stderr
`429`) rotates `A` behind `B`, appends the attempt record and retries. -/
theorem c9_rate_limit_classification_witness :
    (envC1.exec 0).returncode ≠ 0 ∧
    is_rate_limited (combined_output (envC1.exec 0).stdout
      (envC1.exec 0).stderr) = true ∧
    tryAgents (ctxOf envC1 argsC1) "p" "o" "f" 1
        ⟨["A", "B"], 0, 0, 0, []⟩ [] =
      tryAgents (ctxOf envC1 argsC1) "p" "o" "f" 0
        ⟨["B", "A"], 0, 0, 1,
         attemptEvents (ctxOf envC1 argsC1) "p" "f" "A" (envC1.exec 0)⟩
        [("A", logPathOf (ctxOf envC1 argsC1).logs_dir "A" "f")] :=
  ⟨by decide, by decide,
   c9_rate_limit_classification.2 (ctxOf envC1 argsC1) "p" "o" "f" 0
     ⟨["A", "B"], 0, 0, 0, []⟩ [] (by decide) (by decide)⟩

/-- C10: every agent name other than `claude` and `gemini` is dispatched to
the codex invoker — an unrecognized name is never rejected. -/
theorem c10_unknown_agent_codex (agent prompt_text : String)
    (cmdPre : List String) (h1 : agent ≠ "claude") (h2 : agent ≠ "gemini") :
    dispatchCmd agent prompt_text cmdPre = run_codex prompt_text cmdPre := by
  simp [dispatchCmd, h1, h2]

/-- Witness for C10: the misspelled agent name `claud` runs the codex
command line. -/
theorem c10_unknown_agent_codex_witness :
    dispatchCmd "claud" "p" [] = run_codex "p" [] :=
  c10_unknown_agent_codex "claud" "p" [] (by decide) (by decide)
